import Mathlib

/-!
Verification of the versioned virtual file store, version registry and
session lifecycle of the `Ai-site` backend.

The TypeScript sources are shallowly embedded:

* A JavaScript `Map<string, string>` is an insertion-ordered association
  list `List (String × α)`; `Map.get`, `Map.set`, `Map.delete`, `Map.has`
  become `mapGet`, `mapSet`, `mapDelete`, `mapHas`.
* JavaScript `Map` objects are heap references: `new Map(m)` allocates a
  fresh cell holding a copy of `m`'s entries.  The heap is a list of entry
  lists, a reference is an index into it.  This keeps the distinction the
  code relies on between copying a mapping and aliasing it, which is the
  content of the copy-on-write and defensive-copy claims.
* A `Date` is the number of milliseconds since the Unix epoch (a `Nat`).
  Operations that read the clock take the current time as an argument.
* Methods that mutate `this` take the object state and return the new
  state; a `throw` becomes an `Except` error value returned together with
  the unchanged state (the sources always throw before mutating).
-/

/-- JavaScript `Map.get`: value of the first (only) binding of `k`. -/
def mapGet {α : Type} : List (String × α) → String → Option α
  | [], _ => none
  | (k', v) :: t, k => if k' = k then some v else mapGet t k

/-- JavaScript `Map.set`: replace the binding in place if the key is
present (keeping its position), otherwise append a new binding. -/
def mapSet {α : Type} : List (String × α) → String → α → List (String × α)
  | [], k, v => [(k, v)]
  | (k', v') :: t, k, v =>
      if k' = k then (k, v) :: t else (k', v') :: mapSet t k v

/-- JavaScript `Map.delete`: remove the binding of `k` if present. -/
def mapDelete {α : Type} : List (String × α) → String → List (String × α)
  | [], _ => []
  | (k', v') :: t, k =>
      if k' = k then t else (k', v') :: mapDelete t k

/-- JavaScript `Map.has`. -/
def mapHas {α : Type} (m : List (String × α)) (k : String) : Bool :=
  (mapGet m k).isSome

/-- JavaScript `Map.keys()` in insertion order. -/
def mapKeys {α : Type} (m : List (String × α)) : List String :=
  m.map Prod.fst

@[simp] theorem mapGet_nil {α : Type} (k : String) :
    mapGet ([] : List (String × α)) k = none := rfl

@[simp] theorem mapGet_cons {α : Type} (k' : String) (v : α) (t : List (String × α)) (k : String) :
    mapGet ((k', v) :: t) k = if k' = k then some v else mapGet t k := rfl

theorem mapGet_mapSet_self {α : Type} (m : List (String × α)) (k : String) (v : α) :
    mapGet (mapSet m k v) k = some v := by
  induction m with
  | nil => simp [mapSet]
  | cons hd t ih =>
      obtain ⟨k', v'⟩ := hd
      by_cases hk : k' = k
      · simp [mapSet, hk]
      · simp [mapSet, hk, ih]

theorem mapGet_mapSet_ne {α : Type} (m : List (String × α)) (k k' : String) (v : α)
    (h : k ≠ k') : mapGet (mapSet m k v) k' = mapGet m k' := by
  induction m with
  | nil => simp [mapSet, h]
  | cons hd t ih =>
      obtain ⟨k₀, v₀⟩ := hd
      by_cases hk : k₀ = k
      · subst hk
        simp [mapSet, h]
      · simp only [mapSet, if_neg hk, mapGet_cons]
        by_cases hk' : k₀ = k'
        · simp [hk']
        · simp [hk', ih]

theorem mapGet_mapDelete_ne {α : Type} (m : List (String × α)) (k k' : String)
    (h : k ≠ k') : mapGet (mapDelete m k) k' = mapGet m k' := by
  induction m with
  | nil => simp [mapDelete]
  | cons hd t ih =>
      obtain ⟨k₀, v₀⟩ := hd
      by_cases hk : k₀ = k
      · subst hk
        simp [mapDelete, if_pos rfl, h]
      · simp only [mapDelete, if_neg hk, mapGet_cons]
        by_cases hk' : k₀ = k'
        · simp [hk']
        · simp [hk', ih]

theorem mapGet_mem_keys {α : Type} {m : List (String × α)} {k : String} {v : α}
    (h : mapGet m k = some v) : k ∈ mapKeys m := by
  induction m with
  | nil => simp [mapGet] at h
  | cons hd t ih =>
      obtain ⟨k₀, v₀⟩ := hd
      by_cases hk : k₀ = k
      · simp [mapKeys, hk]
      · simp only [mapGet_cons, if_neg hk] at h
        simp [mapKeys] at ih ⊢
        right
        exact ih h

theorem mapGet_eq_none_of_not_mem {α : Type} {m : List (String × α)} {k : String}
    (h : k ∉ mapKeys m) : mapGet m k = none := by
  induction m with
  | nil => rfl
  | cons hd t ih =>
      obtain ⟨k₀, v₀⟩ := hd
      simp only [mapKeys, List.map_cons, List.mem_cons] at h
      push_neg at h
      simp only [mapGet_cons, if_neg (Ne.symm h.1)]
      exact ih h.2

theorem mapGet_mapDelete_self {α : Type} (m : List (String × α)) (k : String)
    (hm : (mapKeys m).Nodup) : mapGet (mapDelete m k) k = none := by
  induction m with
  | nil => simp [mapDelete]
  | cons hd t ih =>
      obtain ⟨k₀, v₀⟩ := hd
      simp only [mapKeys, List.map_cons, List.nodup_cons] at hm
      by_cases hk : k₀ = k
      · subst hk
        simp only [mapDelete, if_pos rfl]
        exact mapGet_eq_none_of_not_mem hm.1
      · simp only [mapDelete, if_neg hk, mapGet_cons, if_neg hk]
        exact ih hm.2

/-! ## The heap of JavaScript `Map<string, string>` objects -/

/-- The heap: cell `r` of `h` holds the entry list of the `Map` object
with reference `r`.  References are indices; allocation appends. -/
def Heap : Type := List (List (String × String))

/-- Read the entries of the map at reference `r`. -/
def heapGet (h : Heap) (r : Nat) : List (String × String) :=
  (List.getD h r [])

/-- Overwrite the entries of the map at reference `r` (in-place `Map`
mutation such as `set`/`delete` on the object at `r`). -/
def heapSet (h : Heap) (r : Nat) (m : List (String × String)) : Heap :=
  List.set h r m

/-- `new Map(m)`: allocate a fresh cell holding the entries `m`. -/
def heapAlloc (h : Heap) (m : List (String × String)) : Heap × Nat :=
  (List.append h [m], List.length h)

theorem heapGet_heapSet_self (h : Heap) (r : Nat) (m : List (String × String))
    (hr : r < List.length h) : heapGet (heapSet h r m) r = m := by
  simp [heapGet, heapSet, List.getD_eq_getElem?_getD, List.getElem?_set_self, hr]

theorem heapGet_heapSet_ne (h : Heap) (r r' : Nat) (m : List (String × String))
    (hne : r ≠ r') : heapGet (heapSet h r m) r' = heapGet h r' := by
  simp [heapGet, heapSet, List.getD_eq_getElem?_getD, List.getElem?_set_ne hne]

theorem heapGet_heapAlloc_fresh (h : Heap) (m : List (String × String)) :
    heapGet (heapAlloc h m).1 (heapAlloc h m).2 = m := by
  simp [heapGet, heapAlloc, List.getD_eq_getElem?_getD]

theorem heapGet_heapAlloc_old (h : Heap) (m : List (String × String)) (r : Nat)
    (hr : r < List.length h) : heapGet (heapAlloc h m).1 r = heapGet h r := by
  simp [heapGet, heapAlloc, List.getD_eq_getElem?_getD, List.getElem?_append_left hr]

theorem length_heapSet (h : Heap) (r : Nat) (m : List (String × String)) :
    List.length (heapSet h r m) = List.length h := by
  simp [heapSet]

/-! ## Virtual file system (`src/backend/src/vfs/VFS.ts`) -/

/-- Error kinds thrown by the VFS, following the spec's taxonomy; each
carries the exact message string the code builds. -/
inductive VFSError : Type
  | invalidPath (msg : String)
  | fileTooLarge (msg : String)
  | fileNotFound (msg : String)
  | snapshotNotFound (msg : String)
  deriving DecidableEq, Repr

/-- `MAX_FILE_SIZE = 10 * 1024 * 1024`. -/
def MAX_FILE_SIZE : Nat := 10 * 1024 * 1024

/-- `MAX_PATH_LENGTH = 4096`. -/
def MAX_PATH_LENGTH : Nat := 4096

/-- `VFS` instance state.  `filesRef` is the reference to the `files`
map object; `snapshots` maps version ids to references of retained
snapshot map objects. -/
structure VFSState where
  filesRef : Nat
  snapshots : List (String × Nat)
  deriving Repr

/-- Is `n` a prefix of `h`? (over character lists). -/
def listIsPrefixOf : List Char → List Char → Bool
  | [], _ => true
  | _ :: _, [] => false
  | a :: n, b :: h => a == b && listIsPrefixOf n h

/-- Does `h` contain `n` as a contiguous substring?  Embeds
`String.prototype.includes`. -/
def listHasSub (n : List Char) : List Char → Bool
  | [] => listIsPrefixOf n []
  | b :: h => listIsPrefixOf n (b :: h) || listHasSub n h

/-- The regular expression test `/^[a-zA-Z]:/.test(path)`. -/
def driveLetterTest (path : String) : Bool :=
  match path.data with
  | c1 :: c2 :: _ => c1.isAlpha && c2 == ':'
  | _ => false

/-- `String.prototype.split(sep)` for a one-character separator, over the
character list. -/
def splitOnChar (sep : Char) : List Char → List (List Char)
  | [] => [[]]
  | c :: cs =>
      if c == sep then [] :: splitOnChar sep cs
      else
        match splitOnChar sep cs with
        | [] => [[c]]
        | seg :: rest => (c :: seg) :: rest

/-- `Array.prototype.join('/')` over character-list segments. -/
def joinSlash : List (List Char) → List Char
  | [] => []
  | [seg] => seg
  | seg :: rest => seg ++ '/' :: joinSlash rest

/-- `VFS.validatePath`: the four sequential checks, with the code's
messages. -/
def validatePath (path : String) : Except VFSError Unit :=
  if path.length > MAX_PATH_LENGTH then
    .error (.invalidPath ("Path length " ++ toString path.length ++ " exceeds maximum " ++ toString MAX_PATH_LENGTH))
  else if listHasSub ['.', '.'] path.data then
    .error (.invalidPath "Path traversal detected: paths cannot contain \"..\"")
  else if listIsPrefixOf ['/'] path.data || driveLetterTest path then
    .error (.invalidPath "Absolute paths are not allowed")
  else if path.data.contains (Char.ofNat 0) then
    .error (.invalidPath "Null bytes are not allowed in paths")
  else .ok ()

/-- `VFS.normalizePath`: split on `/`, drop empty segments, rejoin. -/
def normalizePath (path : String) : String :=
  String.mk (joinSlash ((splitOnChar '/' path.data).filter
    (fun segment => decide (segment.length > 0))))

/-- `VFS.write`.  `new Blob([content]).size` is the UTF-8 byte size of
the content.  Throws before any mutation, so on an error the heap and
state are returned unchanged. -/
def vfsWrite (h : Heap) (st : VFSState) (path content : String) :
    Except VFSError Unit × Heap × VFSState :=
  match validatePath path with
  | .error e => (.error e, h, st)
  | .ok () =>
      if content.utf8ByteSize > MAX_FILE_SIZE then
        (.error (.fileTooLarge ("File size " ++ toString content.utf8ByteSize ++
          " exceeds maximum allowed size " ++ toString MAX_FILE_SIZE)), h, st)
      else
        (.ok (), heapSet h st.filesRef
          (mapSet (heapGet h st.filesRef) (normalizePath path) content), st)

/-- `VFS.read` (no mutation). -/
def vfsRead (h : Heap) (st : VFSState) (path : String) : Except VFSError String :=
  match mapGet (heapGet h st.filesRef) (normalizePath path) with
  | none => .error (.fileNotFound ("File not found: " ++ normalizePath path))
  | some content => .ok content

/-- `VFS.exists`. -/
def vfsExists (h : Heap) (st : VFSState) (path : String) : Bool :=
  mapHas (heapGet h st.filesRef) (normalizePath path)

/-- `VFS.delete`: removes the normalized path from the live map, never
fails. -/
def vfsDelete (h : Heap) (st : VFSState) (path : String) : Heap × VFSState :=
  (heapSet h st.filesRef (mapDelete (heapGet h st.filesRef) (normalizePath path)), st)

/-- `VFS.snapshot`: allocate `new Map(this.files)` and retain it under
the generated version id (`generateVersionId` draws on the clock and a
random source, so the fresh id is a parameter here). -/
def vfsSnapshot (h : Heap) (st : VFSState) (versionId : String) :
    Heap × VFSState × String :=
  let alloc := heapAlloc h (heapGet h st.filesRef)
  (alloc.1, { st with snapshots := mapSet st.snapshots versionId alloc.2 }, versionId)

/-- `VFS.restore`: replace the working map wholesale with
`new Map(snapshot)`. -/
def vfsRestore (h : Heap) (st : VFSState) (versionId : String) :
    Except VFSError Unit × Heap × VFSState :=
  match mapGet st.snapshots versionId with
  | none => (.error (.snapshotNotFound ("Snapshot not found: " ++ versionId)), h, st)
  | some r =>
      let alloc := heapAlloc h (heapGet h r)
      (.ok (), alloc.1, { st with filesRef := alloc.2 })

inductive DiffType : Type
  | added
  | modified
  | deleted
  deriving DecidableEq, Repr

/-- One entry of a computed diff (`FileDiff` of `types/index.ts`). -/
structure FileDiff where
  path : String
  type : DiffType
  oldContent : Option String
  newContent : Option String
  deriving DecidableEq, Repr

/-- `new Set([...keys1, ...keys2])` iterated in insertion order: keep the
first occurrence of each element. -/
def dedupFirst : List String → List String
  | [] => []
  | x :: xs => x :: (dedupFirst xs).filter (fun y => y ≠ x)

/-- The classification the `diff` loop body performs for one path. -/
def diffEntryFor (m1 m2 : List (String × String)) (p : String) : Option FileDiff :=
  match mapGet m1 p, mapGet m2 p with
  | none, some c2 => some ⟨p, .added, none, some c2⟩
  | some c1, none => some ⟨p, .deleted, some c1, none⟩
  | some c1, some c2 => if c1 = c2 then none else some ⟨p, .modified, some c1, some c2⟩
  | none, none => none

/-- The loop of `VFS.diff` over the union of both snapshots' paths in
first-occurrence order. -/
def diffLists (m1 m2 : List (String × String)) : List FileDiff :=
  (dedupFirst (mapKeys m1 ++ mapKeys m2)).filterMap (diffEntryFor m1 m2)

/-- `VFS.diff`. -/
def vfsDiff (h : Heap) (st : VFSState) (v1 v2 : String) :
    Except VFSError (List FileDiff) :=
  match mapGet st.snapshots v1 with
  | none => .error (.snapshotNotFound ("Snapshot not found: " ++ v1))
  | some r1 =>
      match mapGet st.snapshots v2 with
      | none => .error (.snapshotNotFound ("Snapshot not found: " ++ v2))
      | some r2 => .ok (diffLists (heapGet h r1) (heapGet h r2))

/-- A `write`/`delete` call on the live store (the operations claim C2
quantifies over). -/
inductive VFSOp : Type
  | write (path content : String)
  | del (path : String)

/-- Run one operation, keeping whatever state the call leaves behind
(a failed `write` leaves everything unchanged). -/
def applyVFSOp (h : Heap) (st : VFSState) : VFSOp → Heap × VFSState
  | .write p c => (vfsWrite h st p c).2
  | .del p => vfsDelete h st p

/-- Run a sequence of live-store operations. -/
def applyVFSOps (h : Heap) (st : VFSState) : List VFSOp → Heap × VFSState
  | [] => (h, st)
  | op :: ops =>
      let next := applyVFSOp h st op
      applyVFSOps next.1 next.2 ops

/-- The conditions the spec lists for `InvalidPath` rejection (exactly as
the claim phrases them). -/
def pathRejected (p : String) : Prop :=
  listHasSub ['.', '.'] p.data = true ∨ listIsPrefixOf ['/'] p.data = true ∨
    driveLetterTest p = true ∨ p.data.contains (Char.ofNat 0) = true ∨
    p.length > 4096

instance (p : String) : Decidable (pathRejected p) := by
  unfold pathRejected
  infer_instance

theorem validatePath_error_of_rejected (p : String) (hp : pathRejected p) :
    ∃ m, validatePath p = .error (.invalidPath m) := by
  unfold validatePath
  rcases hp with h | h | h | h | h
  · by_cases hl : p.length > MAX_PATH_LENGTH
    · exact ⟨_, by rw [if_pos hl]⟩
    · exact ⟨_, by rw [if_neg hl, if_pos h]⟩
  · by_cases hl : p.length > MAX_PATH_LENGTH
    · exact ⟨_, by rw [if_pos hl]⟩
    · by_cases ht : listHasSub ['.', '.'] p.data = true
      · exact ⟨_, by rw [if_neg hl, if_pos ht]⟩
      · exact ⟨_, by rw [if_neg hl, if_neg ht, if_pos (by simp [h])]⟩
  · by_cases hl : p.length > MAX_PATH_LENGTH
    · exact ⟨_, by rw [if_pos hl]⟩
    · by_cases ht : listHasSub ['.', '.'] p.data = true
      · exact ⟨_, by rw [if_neg hl, if_pos ht]⟩
      · exact ⟨_, by rw [if_neg hl, if_neg ht, if_pos (by simp [h])]⟩
  · by_cases hl : p.length > MAX_PATH_LENGTH
    · exact ⟨_, by rw [if_pos hl]⟩
    · by_cases ht : listHasSub ['.', '.'] p.data = true
      · exact ⟨_, by rw [if_neg hl, if_pos ht]⟩
      · by_cases ha : (listIsPrefixOf ['/'] p.data || driveLetterTest p) = true
        · exact ⟨_, by rw [if_neg hl, if_neg ht, if_pos ha]⟩
        · exact ⟨_, by rw [if_neg hl, if_neg ht, if_neg ha, if_pos h]⟩
  · have hl : p.length > MAX_PATH_LENGTH := h
    exact ⟨_, by rw [if_pos hl]⟩

theorem validatePath_ok_of_not_rejected (p : String) (hp : ¬ pathRejected p) :
    validatePath p = .ok () := by
  unfold pathRejected at hp
  push_neg at hp
  obtain ⟨h1, h2, h3, h4, h5⟩ := hp
  unfold validatePath
  rw [if_neg (by simpa [MAX_PATH_LENGTH] using h5), if_neg h1,
    if_neg (by simp [h2, h3]), if_neg h4]

theorem mapDelete_of_get_none {α : Type} (m : List (String × α)) (k : String)
    (h : mapGet m k = none) : mapDelete m k = m := by
  induction m with
  | nil => rfl
  | cons hd t ih =>
      obtain ⟨k₀, v₀⟩ := hd
      by_cases hk : k₀ = k
      · simp [mapGet_cons, hk] at h
      · simp only [mapGet_cons, if_neg hk] at h
        simp [mapDelete, hk, ih h]

theorem heapSet_heapGet_self (h : Heap) (r : Nat) (hr : r < List.length h) :
    heapSet h r (heapGet h r) = h := by
  induction h generalizing r with
  | nil => simp at hr
  | cons x t ih =>
      cases r with
      | zero => simp [heapSet, heapGet]
      | succ r =>
          have step := ih r (by simpa using hr)
          show x :: heapSet t r (heapGet t r) = x :: t
          exact congrArg (List.cons x) step

/-- Claim C6: a path containing `..`, starting with `/`, matching a drive
letter prefix, containing a null byte, or longer than 4096 characters is
rejected by `write` with `InvalidPath`, leaving heap and state unchanged;
an accepted path with content larger than 10 MiB is rejected with
`FileTooLarge`, unchanged; content within the 10 MiB cap (in particular
exactly at the boundary) is accepted and stored under the normalized
path. -/
theorem C6_write_path_and_size_validation (h : Heap) (st : VFSState) (p c : String) :
    (pathRejected p → ∃ m, vfsWrite h st p c = (.error (.invalidPath m), h, st)) ∧
    (¬ pathRejected p → c.utf8ByteSize > MAX_FILE_SIZE →
      vfsWrite h st p c = (.error (.fileTooLarge ("File size " ++ toString c.utf8ByteSize ++
        " exceeds maximum allowed size " ++ toString MAX_FILE_SIZE)), h, st)) ∧
    (¬ pathRejected p → c.utf8ByteSize ≤ MAX_FILE_SIZE →
      vfsWrite h st p c = (.ok (), heapSet h st.filesRef
          (mapSet (heapGet h st.filesRef) (normalizePath p) c), st) ∧
        (st.filesRef < List.length h →
          mapGet (heapGet (vfsWrite h st p c).2.1 st.filesRef) (normalizePath p) = some c)) := by
  refine ⟨?_, ?_, ?_⟩
  · intro hp
    obtain ⟨m, hm⟩ := validatePath_error_of_rejected p hp
    exact ⟨m, by simp [vfsWrite, hm]⟩
  · intro hp hc
    rw [vfsWrite, validatePath_ok_of_not_rejected p hp]
    simp [if_pos hc]
  · intro hp hc
    have hok : vfsWrite h st p c = (.ok (), heapSet h st.filesRef
        (mapSet (heapGet h st.filesRef) (normalizePath p) c), st) := by
      rw [vfsWrite, validatePath_ok_of_not_rejected p hp]
      simp [Nat.not_lt.mpr hc]
    refine ⟨hok, fun hwf => ?_⟩
    rw [hok]
    simp only []
    rw [heapGet_heapSet_self _ _ _ hwf, mapGet_mapSet_self]

/-- Concrete instantiation of C6: the store `[["a", "x"]]` accepts the
write of `"y"` at path `"b//c/"` (normalized to `"b/c"`), and rejects
`"../b"`. -/
theorem C6_write_path_and_size_validation_witness :
    (¬ pathRejected "b//c/" ∧ String.utf8ByteSize "y" ≤ MAX_FILE_SIZE ∧
      mapGet (heapGet (vfsWrite [[("a", "x")]] ⟨0, []⟩ "b//c/" "y").2.1 0) "b/c" = some "y") ∧
    (pathRejected "../b" ∧
      ∃ m, vfsWrite [[("a", "x")]] ⟨0, []⟩ "../b" "y" = (.error (.invalidPath m), [[("a", "x")]], ⟨0, []⟩)) := by
  refine ⟨⟨by decide, by decide, ?_⟩, by decide, ?_⟩
  · have h := (C6_write_path_and_size_validation [[("a", "x")]] ⟨0, []⟩ "b//c/" "y").2.2
      (by decide) (by decide)
    have h2 := h.2 (by decide)
    have hnorm : normalizePath "b//c/" = "b/c" := by decide
    rw [hnorm] at h2
    exact h2
  · exact (C6_write_path_and_size_validation [[("a", "x")]] ⟨0, []⟩ "../b" "y").1 (by decide)

/-- Claim C10: `read`, `exists` and `delete` never perform path
validation — no path, however malformed, produces an `InvalidPath`
failure from them.  When the normalized form of the path is absent from
the store, `read` fails with `FileNotFound` (naming the normalized
path), `exists` returns `false`, and `delete` returns without error and
without changing the store. -/
theorem C10_read_exists_delete_skip_validation (h : Heap) (st : VFSState) (p : String) :
    (∀ m, vfsRead h st p ≠ .error (.invalidPath m)) ∧
    (mapGet (heapGet h st.filesRef) (normalizePath p) = none →
      vfsRead h st p = .error (.fileNotFound ("File not found: " ++ normalizePath p)) ∧
      vfsExists h st p = false ∧
      (st.filesRef < List.length h → vfsDelete h st p = (h, st))) := by
  constructor
  · intro m
    unfold vfsRead
    cases hget : mapGet (heapGet h st.filesRef) (normalizePath p) <;> simp
  · intro habs
    refine ⟨by simp [vfsRead, habs], by simp [vfsExists, mapHas, habs], fun hwf => ?_⟩
    unfold vfsDelete
    rw [mapDelete_of_get_none _ _ habs, heapSet_heapGet_self h st.filesRef hwf]

/-- Concrete instantiation of C10: reading, testing and deleting the
traversal path `"../x"` on the store `[["a", "x"]]`. -/
theorem C10_read_exists_delete_skip_validation_witness :
    mapGet (heapGet [[("a", "x")]] (0 : Nat)) (normalizePath "../x") = none ∧
    vfsRead [[("a", "x")]] ⟨0, []⟩ "../x" =
      .error (.fileNotFound ("File not found: " ++ normalizePath "../x")) ∧
    vfsExists [[("a", "x")]] ⟨0, []⟩ "../x" = false ∧
    vfsDelete [[("a", "x")]] ⟨0, []⟩ "../x" = ([[("a", "x")]], ⟨0, []⟩) := by
  have h := (C10_read_exists_delete_skip_validation [[("a", "x")]] ⟨0, []⟩ "../x").2 (by decide)
  exact ⟨by decide, h.1, h.2.1, h.2.2 (by decide)⟩

theorem applyVFSOp_frame (h : Heap) (st : VFSState) (op : VFSOp) :
    (applyVFSOp h st op).2.filesRef = st.filesRef ∧
    (applyVFSOp h st op).2.snapshots = st.snapshots ∧
    List.length (applyVFSOp h st op).1 = List.length h ∧
    ∀ r, r ≠ st.filesRef → heapGet (applyVFSOp h st op).1 r = heapGet h r := by
  cases op with
  | write p c =>
      cases hv : validatePath p with
      | error e => simp [applyVFSOp, vfsWrite, hv]
      | ok u =>
          cases u
          by_cases hc : c.utf8ByteSize > MAX_FILE_SIZE
          · simp [applyVFSOp, vfsWrite, hv, if_pos hc]
          · refine ⟨by simp [applyVFSOp, vfsWrite, hv, if_neg hc],
              by simp [applyVFSOp, vfsWrite, hv, if_neg hc],
              by simp [applyVFSOp, vfsWrite, hv, if_neg hc, length_heapSet],
              fun r hr => ?_⟩
            simp only [applyVFSOp, vfsWrite, hv, if_neg hc]
            exact heapGet_heapSet_ne _ _ _ _ (Ne.symm hr)
  | del p =>
      unfold applyVFSOp vfsDelete
      exact ⟨rfl, rfl, length_heapSet _ _ _, fun r hr =>
        heapGet_heapSet_ne _ _ _ _ (Ne.symm hr)⟩

theorem applyVFSOps_frame (ops : List VFSOp) : ∀ (h : Heap) (st : VFSState),
    (applyVFSOps h st ops).2.filesRef = st.filesRef ∧
    (applyVFSOps h st ops).2.snapshots = st.snapshots ∧
    List.length (applyVFSOps h st ops).1 = List.length h ∧
    ∀ r, r ≠ st.filesRef → heapGet (applyVFSOps h st ops).1 r = heapGet h r := by
  induction ops with
  | nil => exact fun h st => ⟨rfl, rfl, rfl, fun _ _ => rfl⟩
  | cons op ops ih =>
      intro h st
      obtain ⟨f1, s1, l1, g1⟩ := applyVFSOp_frame h st op
      obtain ⟨f2, s2, l2, g2⟩ := ih (applyVFSOp h st op).1 (applyVFSOp h st op).2
      refine ⟨by simpa [applyVFSOps, f1] using f2, by simpa [applyVFSOps, s1] using s2,
        by simpa [applyVFSOps, l1] using l2, fun r hr => ?_⟩
      have := g2 r (by rw [f1]; exact hr)
      simpa [applyVFSOps, g1 r hr] using this

/-- Claim C2: after `snapshot()` returns, any sequence of `write` and
`delete` operations on the live store leaves the retained snapshot
unchanged: the snapshot still holds the mapping that was current when
`snapshot()` ran, `diff` computes against exactly that mapping, and
`restore` reinstates exactly that mapping as the working set. -/
theorem C2_snapshot_isolation (h : Heap) (st : VFSState) (vid : String) (ops : List VFSOp)
    (hwf : st.filesRef < List.length h) :
    ∀ h₂ st₂, applyVFSOps (vfsSnapshot h st vid).1 (vfsSnapshot h st vid).2.1 ops = (h₂, st₂) →
      mapGet st₂.snapshots vid = some (List.length h) ∧
      heapGet h₂ (List.length h) = heapGet h st.filesRef ∧
      (∀ v2 r2, mapGet st₂.snapshots v2 = some r2 →
        vfsDiff h₂ st₂ vid v2 = .ok (diffLists (heapGet h st.filesRef) (heapGet h₂ r2))) ∧
      (∃ h₃ st₃, vfsRestore h₂ st₂ vid = (.ok (), h₃, st₃) ∧
        heapGet h₃ st₃.filesRef = heapGet h st.filesRef) := by
  intro h₂ st₂ hops
  obtain ⟨ff, ss, ll, gg⟩ := applyVFSOps_frame ops (vfsSnapshot h st vid).1 (vfsSnapshot h st vid).2.1
  rw [hops] at ff ss gg
  have hs2snap : (vfsSnapshot h st vid).2.1.snapshots = mapSet st.snapshots vid (List.length h) := rfl
  have hs2files : (vfsSnapshot h st vid).2.1.filesRef = st.filesRef := rfl
  have hsnapget : mapGet st₂.snapshots vid = some (List.length h) := by
    rw [ss, hs2snap]
    exact mapGet_mapSet_self _ _ _
  have hfresh : heapGet h₂ (List.length h) = heapGet h st.filesRef := by
    have hneq : (List.length h : Nat) ≠ (vfsSnapshot h st vid).2.1.filesRef := by
      rw [hs2files]; omega
    rw [gg (List.length h) hneq]
    exact heapGet_heapAlloc_fresh h (heapGet h st.filesRef)
  refine ⟨hsnapget, hfresh, ?_, ?_⟩
  · intro v2 r2 hv2
    rw [vfsDiff, hsnapget, hv2]
    simp [hfresh]
  · refine ⟨List.append h₂ [heapGet h₂ (List.length h)], { st₂ with filesRef := List.length h₂ },
      ?_, ?_⟩
    · rw [vfsRestore, hsnapget]
      rfl
    · exact (heapGet_heapAlloc_fresh h₂ (heapGet h₂ (List.length h))).trans hfresh

/-- Concrete instantiation of C2: snapshot a one-file store, then
overwrite the file and delete it; the snapshot still restores the
original content. -/
theorem C2_snapshot_isolation_witness :
    (0 : Nat) < List.length [[("a", "1")]] ∧
    ∃ h₃ st₃,
      vfsRestore
        (applyVFSOps (vfsSnapshot [[("a", "1")]] ⟨0, []⟩ "v1").1
          (vfsSnapshot [[("a", "1")]] ⟨0, []⟩ "v1").2.1
          [.write "a" "2", .del "a"]).1
        (applyVFSOps (vfsSnapshot [[("a", "1")]] ⟨0, []⟩ "v1").1
          (vfsSnapshot [[("a", "1")]] ⟨0, []⟩ "v1").2.1
          [.write "a" "2", .del "a"]).2 "v1" = (.ok (), h₃, st₃) ∧
      heapGet h₃ st₃.filesRef = [("a", "1")] := by
  constructor
  · decide
  · have h := C2_snapshot_isolation [[("a", "1")]] ⟨0, []⟩ "v1" [.write "a" "2", .del "a"]
      (by decide) _ _ rfl
    obtain ⟨h₃, st₃, hres, hget⟩ := h.2.2.2
    exact ⟨h₃, st₃, hres, by rw [hget]; decide⟩

theorem mem_dedupFirst {l : List String} {p : String} : p ∈ dedupFirst l ↔ p ∈ l := by
  induction l with
  | nil => simp [dedupFirst]
  | cons x xs ih =>
      show p ∈ x :: (dedupFirst xs).filter (fun y => y ≠ x) ↔ p ∈ x :: xs
      constructor
      · intro hmem
        rcases List.mem_cons.mp hmem with rfl | hmem'
        · exact List.mem_cons_self _ _
        · exact List.mem_cons_of_mem _ (ih.mp (List.mem_filter.mp hmem').1)
      · intro hmem
        by_cases hx : p = x
        · subst hx
          exact List.mem_cons_self _ _
        · rcases List.mem_cons.mp hmem with rfl | hmem'
          · exact absurd rfl hx
          · exact List.mem_cons_of_mem _ (List.mem_filter.mpr ⟨ih.mpr hmem', by simp [hx]⟩)

theorem nodup_dedupFirst (l : List String) : (dedupFirst l).Nodup := by
  induction l with
  | nil => simp [dedupFirst]
  | cons x xs ih =>
      simp only [dedupFirst, List.nodup_cons]
      refine ⟨fun hmem => ?_, List.Nodup.filter _ ih⟩
      have := (List.mem_filter.mp hmem).2
      simp at this

theorem filterMap_filter_path (f : String → Option FileDiff)
    (hf : ∀ p e, f p = some e → e.path = p) :
    ∀ (l : List String), l.Nodup → ∀ p : String,
      (l.filterMap f).filter (fun e => e.path == p) =
        if p ∈ l then (f p).toList else [] := by
  intro l
  induction l with
  | nil => simp
  | cons x xs ih =>
      intro hnd p
      obtain ⟨hx, hnd'⟩ := List.nodup_cons.mp hnd
      by_cases hp : p = x
      · subst hp
        cases hfx : f p with
        | none =>
            simp only [List.filterMap_cons, hfx, ih hnd' p, if_neg hx]
            simp [hfx]
        | some e =>
            have hpath : e.path = p := hf p e hfx
            simp only [List.filterMap_cons, hfx, List.filter_cons]
            rw [ih hnd' p, if_neg hx]
            simp [hpath, hfx]
      · cases hfx : f x with
        | none =>
            simp only [List.filterMap_cons, hfx, ih hnd' p]
            simp [Ne.symm hp, hp]
        | some e =>
            have hpath : e.path = x := hf x e hfx
            simp only [List.filterMap_cons, hfx, List.filter_cons]
            have : (e.path == p) = false := by
              simp [hpath, hp, Ne.symm hp]
            rw [this]
            simp only [ih hnd' p]
            simp [hp, Ne.symm hp]

theorem diffEntryFor_path (m1 m2 : List (String × String)) (p : String) (e : FileDiff)
    (h : diffEntryFor m1 m2 p = some e) : e.path = p := by
  unfold diffEntryFor at h
  split at h
  · cases h; rfl
  · cases h; rfl
  · split at h
    · cases h
    · cases h; rfl
  · cases h

/-- Claim C7: for two retained snapshots, the diff holds exactly one
entry for every path of the union whose content differs — `added` when
absent in the first and present in the second, `deleted` when present in
the first and absent in the second, `modified` when present in both with
different content — and no entry for a path with identical content;
unknown snapshot ids fail with `SnapshotNotFound`. -/
theorem C7_diff_classification (h : Heap) (st : VFSState) (v1 v2 : String) :
    (mapGet st.snapshots v1 = none →
      vfsDiff h st v1 v2 = .error (.snapshotNotFound ("Snapshot not found: " ++ v1))) ∧
    (∀ r1, mapGet st.snapshots v1 = some r1 → mapGet st.snapshots v2 = none →
      vfsDiff h st v1 v2 = .error (.snapshotNotFound ("Snapshot not found: " ++ v2))) ∧
    (∀ r1 r2, mapGet st.snapshots v1 = some r1 → mapGet st.snapshots v2 = some r2 →
      vfsDiff h st v1 v2 = .ok (diffLists (heapGet h r1) (heapGet h r2)) ∧
      ∀ p : String,
        (mapGet (heapGet h r1) p = none → ∀ c2, mapGet (heapGet h r2) p = some c2 →
          (diffLists (heapGet h r1) (heapGet h r2)).filter (fun e => e.path == p) =
            [⟨p, .added, none, some c2⟩]) ∧
        (∀ c1, mapGet (heapGet h r1) p = some c1 → mapGet (heapGet h r2) p = none →
          (diffLists (heapGet h r1) (heapGet h r2)).filter (fun e => e.path == p) =
            [⟨p, .deleted, some c1, none⟩]) ∧
        (∀ c1 c2, mapGet (heapGet h r1) p = some c1 → mapGet (heapGet h r2) p = some c2 →
          c1 ≠ c2 →
          (diffLists (heapGet h r1) (heapGet h r2)).filter (fun e => e.path == p) =
            [⟨p, .modified, some c1, some c2⟩]) ∧
        (mapGet (heapGet h r1) p = mapGet (heapGet h r2) p →
          (diffLists (heapGet h r1) (heapGet h r2)).filter (fun e => e.path == p) = [])) := by
  have key : ∀ (m1 m2 : List (String × String)) (p : String),
      (diffLists m1 m2).filter (fun e => e.path == p) =
        if p ∈ dedupFirst (mapKeys m1 ++ mapKeys m2) then (diffEntryFor m1 m2 p).toList
        else [] :=
    fun m1 m2 p =>
      filterMap_filter_path _ (diffEntryFor_path m1 m2) _
        (nodup_dedupFirst (mapKeys m1 ++ mapKeys m2)) p
  refine ⟨fun h1 => by rw [vfsDiff, h1], fun r1 h1 h2 => by rw [vfsDiff, h1, h2], ?_⟩
  intro r1 r2 h1 h2
  refine ⟨by rw [vfsDiff, h1, h2], fun p => ?_⟩
  set m1 := heapGet h r1 with hm1
  set m2 := heapGet h r2 with hm2
  refine ⟨?_, ?_, ?_, ?_⟩
  · intro h1p c2 h2p
    rw [key]
    rw [if_pos (mem_dedupFirst.mpr (List.mem_append.mpr (.inr (mapGet_mem_keys h2p))))]
    simp [diffEntryFor, h1p, h2p]
  · intro c1 h1p h2p
    rw [key]
    rw [if_pos (mem_dedupFirst.mpr (List.mem_append.mpr (.inl (mapGet_mem_keys h1p))))]
    simp [diffEntryFor, h1p, h2p]
  · intro c1 c2 h1p h2p hne
    rw [key]
    rw [if_pos (mem_dedupFirst.mpr (List.mem_append.mpr (.inl (mapGet_mem_keys h1p))))]
    simp [diffEntryFor, h1p, h2p, hne]
  · intro heq
    rw [key]
    cases hg : mapGet m1 p with
    | none =>
        have hg2 : mapGet m2 p = none := by rw [← heq, hg]
        simp [diffEntryFor, hg, hg2]
    | some c =>
        have hg2 : mapGet m2 p = some c := by rw [← heq, hg]
        simp [diffEntryFor, hg, hg2]

/-- Concrete instantiation of C7: diffing the snapshots
`{index.html: "A", a.ts: "1"}` and `{index.html: "B", b.ts: "2"}`. -/
theorem C7_diff_classification_witness :
    vfsDiff [[("index.html", "A"), ("a.ts", "1")], [("index.html", "B"), ("b.ts", "2")]]
        ⟨0, [("v1", 0), ("v2", 1)]⟩ "v1" "v2" =
      .ok [⟨"index.html", .modified, some "A", some "B"⟩,
        ⟨"a.ts", .deleted, some "1", none⟩,
        ⟨"b.ts", .added, none, some "2"⟩] ∧
    (diffLists [("index.html", "A"), ("a.ts", "1")] [("index.html", "B"), ("b.ts", "2")]).filter
        (fun e => e.path == "a.ts") = [⟨"a.ts", .deleted, some "1", none⟩] := by
  constructor
  · rfl
  · have h := ((C7_diff_classification
      [[("index.html", "A"), ("a.ts", "1")], [("index.html", "B"), ("b.ts", "2")]]
      ⟨0, [("v1", 0), ("v2", 1)]⟩ "v1" "v2").2.2 0 1 (by decide) (by decide)).2 "a.ts"
    exact h.2.1 "1" (by decide) (by decide)

/-! ## Version registry (`VersionManager`) -/

inductive VersionStatus : Type
  | BUILDING
  | VALID
  | FAILED
  deriving DecidableEq, Repr

/-- A `Version` record.  `filesRef` is the reference to its private
`files` map object (`new Map(files)` at creation). -/
structure Version where
  id : String
  timestamp : Nat
  filesRef : Nat
  status : VersionStatus
  errorLog : Option String
  deriving DecidableEq, Repr

/-- Error kind thrown by `VersionManager`. -/
inductive VMError : Type
  | versionNotFound (msg : String)
  deriving DecidableEq, Repr

structure VersionManager where
  versions : List (String × Version)
  sessionVersions : List (String × List String)
  deriving Repr

/-- `VersionManager.createVersion`: mint a Version holding a defensive
copy of the given files map, store it, and append its id to the
session's list.  The generated id and the clock reading are
parameters. -/
def createVersion (h : Heap) (vm : VersionManager) (sessionId : String) (filesRef : Nat)
    (status : VersionStatus) (versionId : String) (now : Nat) :
    Heap × VersionManager × Version :=
  let alloc := heapAlloc h (heapGet h filesRef)
  let version : Version :=
    { id := versionId, timestamp := now, filesRef := alloc.2, status := status, errorLog := none }
  let sessionList :=
    match mapGet vm.sessionVersions sessionId with
    | none => [versionId]
    | some l => l ++ [versionId]
  (alloc.1,
    { versions := mapSet vm.versions versionId version,
      sessionVersions := mapSet vm.sessionVersions sessionId sessionList },
    version)

/-- `VersionManager.getVersion`. -/
def getVersion (vm : VersionManager) (versionId : String) : Option Version :=
  mapGet vm.versions versionId

/-- `VersionManager.updateVersionStatus`: build a replacement record
(spread of the old one with new status/errorLog and a fresh timestamp)
and substitute it under the same id. -/
def updateVersionStatus (vm : VersionManager) (versionId : String) (status : VersionStatus)
    (errorLog : Option String) (now : Nat) : Except VMError Unit × VersionManager :=
  match mapGet vm.versions versionId with
  | none => (.error (.versionNotFound ("Version not found: " ++ versionId)), vm)
  | some version =>
      let updatedVersion : Version :=
        { version with status := status, errorLog := errorLog, timestamp := now }
      (.ok (), { vm with versions := mapSet vm.versions versionId updatedVersion })

/-- Claim C1: a minted Version's file mapping is a fresh copy — later
mutation of the map that was passed to `createVersion` (the live store's
map) does not alter it — and `updateVersionStatus` substitutes a
replacement record with the same id and same file mapping, a new
timestamp and the new status/errorLog, visible to later `getVersion`
lookups. -/
theorem C1_version_immutability (h : Heap) (vm : VersionManager) (sessionId : String)
    (filesRef : Nat) (status : VersionStatus) (versionId : String) (now : Nat)
    (hwf : filesRef < List.length h) :
    ∀ h' vm' v, createVersion h vm sessionId filesRef status versionId now = (h', vm', v) →
      (getVersion vm' versionId = some v ∧
        v.id = versionId ∧ v.timestamp = now ∧ v.status = status ∧
        heapGet h' v.filesRef = heapGet h filesRef) ∧
      (∀ m', heapGet (heapSet h' filesRef m') v.filesRef = heapGet h filesRef) ∧
      (∀ s2 e2 t2,
        ∃ vm'', updateVersionStatus vm' versionId s2 e2 t2 = (.ok (), vm'') ∧
          getVersion vm'' versionId =
            some { v with status := s2, errorLog := e2, timestamp := t2 } ∧
          heapGet h' ({ v with status := s2, errorLog := e2, timestamp := t2 } : Version).filesRef = heapGet h filesRef) := by
  intro h' vm' v hcre
  have hh' : h' = (heapAlloc h (heapGet h filesRef)).1 := by
    rw [createVersion] at hcre
    exact (congrArg Prod.fst hcre).symm
  have hvm' : vm'.versions = mapSet vm.versions versionId
      { id := versionId, timestamp := now, filesRef := List.length h, status := status, errorLog := none } := by
    rw [createVersion] at hcre
    have := congrArg (fun t => t.2.1.versions) hcre
    exact this.symm
  have hv : v = { id := versionId, timestamp := now, filesRef := List.length h, status := status, errorLog := none } := by
    rw [createVersion] at hcre
    exact (congrArg (fun t => t.2.2) hcre).symm
  have hget : getVersion vm' versionId = some v := by
    rw [getVersion, hvm', hv]
    exact mapGet_mapSet_self _ _ _
  have hcopy : heapGet h' v.filesRef = heapGet h filesRef := by
    rw [hh', hv]
    exact heapGet_heapAlloc_fresh h (heapGet h filesRef)
  refine ⟨⟨hget, by rw [hv], by rw [hv], by rw [hv], hcopy⟩, ?_, ?_⟩
  · intro m'
    have hne : filesRef ≠ v.filesRef := by rw [hv]; simp; omega
    rw [heapGet_heapSet_ne h' filesRef v.filesRef m' hne]
    exact hcopy
  · intro s2 e2 t2
    refine ⟨{ vm' with versions := mapSet vm'.versions versionId { v with status := s2, errorLog := e2, timestamp := t2 } }, ?_, ?_, ?_⟩
    · rw [updateVersionStatus, getVersion] at *
      rw [hget]
    · show mapGet (mapSet vm'.versions versionId _) versionId = _
      exact mapGet_mapSet_self _ _ _
    · exact hcopy

/-- Concrete instantiation of C1: create a version from the map
`{x: "1"}`, overwrite the originating map, update the status; the
version's files are still `{x: "1"}`. -/
theorem C1_version_immutability_witness :
    (0 : Nat) < List.length [[("x", "1")]] ∧
    ∀ h' vm' v, createVersion [[("x", "1")]] ⟨[], []⟩ "s1" 0 .BUILDING "v1" 5 = (h', vm', v) →
      heapGet (heapSet h' 0 [("x", "2")]) v.filesRef = [("x", "1")] ∧
      ∃ vm'', updateVersionStatus vm' "v1" .VALID none 9 = (.ok (), vm'') ∧
        getVersion vm'' "v1" =
          some { v with status := .VALID, errorLog := none, timestamp := 9 } := by
  refine ⟨by decide, ?_⟩
  intro h' vm' v hcre
  have h := C1_version_immutability [[("x", "1")]] ⟨[], []⟩ "s1" 0 .BUILDING "v1" 5
    (by decide) h' vm' v hcre
  obtain ⟨⟨hget, hid, hts, hst, hcopy⟩, hmut, hupd⟩ := h
  obtain ⟨vm'', hu1, hu2, hu3⟩ := hupd .VALID none 9
  refine ⟨?_, vm'', hu1, hu2⟩
  rw [hmut [("x", "2")]]
  have : heapGet [[("x", "1")]] 0 = [("x", "1")] := by decide
  rw [this]

/-! ## Session lifecycle (`src/backend/src/sessions/SessionManager.ts`) -/

inductive SessionState : Type
  | CREATED
  | GENERATING
  | BUILDING
  | VALIDATING
  | READY
  | FAILED
  | FIXING
  deriving DecidableEq, Repr

/-- The string value of each member of the `SessionState` enum. -/
def sessionStateStr : SessionState → String
  | .CREATED => "CREATED"
  | .GENERATING => "GENERATING"
  | .BUILDING => "BUILDING"
  | .VALIDATING => "VALIDATING"
  | .READY => "READY"
  | .FAILED => "FAILED"
  | .FIXING => "FIXING"

/-- The `VALID_TRANSITIONS` table. -/
def VALID_TRANSITIONS : SessionState → List SessionState
  | .CREATED => [.GENERATING, .FAILED]
  | .GENERATING => [.BUILDING, .FAILED]
  | .BUILDING => [.VALIDATING, .FAILED]
  | .VALIDATING => [.READY, .FAILED]
  | .READY => [.GENERATING, .BUILDING, .FIXING]
  | .FAILED => [.FIXING, .GENERATING]
  | .FIXING => [.BUILDING, .FAILED]

/-- A `Session` record (`types/session.ts`).  The metadata payload is
opaque to every `SessionManager` operation; its entries are modelled as
strings. -/
structure Session where
  id : String
  userId : String
  state : SessionState
  currentVersion : Option String
  lastValidVersion : Option String
  createdAt : Nat
  expiresAt : Nat
  metadata : Option (List (String × String))
  deriving DecidableEq, Repr

/-- Error kinds thrown by `SessionManager`, with the exact message the
code builds. -/
inductive SMError : Type
  | sessionNotFound (msg : String)
  | invalidTransition (msg : String)
  deriving DecidableEq, Repr

structure SessionManager where
  sessions : List (String × Session)
  sessionLocks : List (String × Bool)
  deriving Repr

/-- JavaScript truthiness of a `string | null` value: `null` and the
empty string are falsy. -/
def jsTruthy : Option String → Bool
  | none => false
  | some s => !(s == "")

/-- `SessionManager.createSession` (generated id and clock reading are
parameters). -/
def createSession (sm : SessionManager) (sessionId userId : String)
    (metadata : Option (List (String × String))) (now : Nat) : SessionManager × Session :=
  let session : Session :=
    { id := sessionId, userId := userId, state := .CREATED, currentVersion := none, lastValidVersion := none, createdAt := now, expiresAt := now + 24 * 60 * 60 * 1000, metadata := metadata }
  ({ sessions := mapSet sm.sessions sessionId session,
     sessionLocks := mapSet sm.sessionLocks sessionId false }, session)

/-- `SessionManager.deleteSession`. -/
def deleteSession (sm : SessionManager) (sessionId : String) : SessionManager :=
  { sessions := mapDelete sm.sessions sessionId,
    sessionLocks := mapDelete sm.sessionLocks sessionId }

/-- `SessionManager.getSession`: lazy expiry check; an expired session is
evicted as a side effect and reported absent. -/
def getSession (sm : SessionManager) (sessionId : String) (now : Nat) :
    Option Session × SessionManager :=
  match mapGet sm.sessions sessionId with
  | none => (none, sm)
  | some session =>
      if session.expiresAt < now then (none, deleteSession sm sessionId)
      else (some session, sm)

/-- `SessionManager.transitionState`.  Note: it looks the session up in
the raw map (`this.sessions.get`), with no expiry check.  The
`console.log` side effect is unobservable state-wise and omitted. -/
def transitionState (sm : SessionManager) (sessionId : String) (newState : SessionState)
    (log : String) : Except SMError Unit × SessionManager :=
  match mapGet sm.sessions sessionId with
  | none => (.error (.sessionNotFound ("Session not found: " ++ sessionId)), sm)
  | some session =>
      if newState ∈ VALID_TRANSITIONS session.state then
        if newState = .READY ∧ jsTruthy session.currentVersion then
          (.ok (), { sm with sessions := mapSet sm.sessions sessionId { session with state := newState, lastValidVersion := session.currentVersion } })
        else
          (.ok (), { sm with sessions := mapSet sm.sessions sessionId { session with state := newState } })
      else
        (.error (.invalidTransition ("Invalid state transition from " ++ sessionStateStr session.state ++ " to " ++ sessionStateStr newState ++ ". Valid transitions: " ++ String.intercalate ", " ((VALID_TRANSITIONS session.state).map sessionStateStr))), sm)

/-- `SessionManager.setCurrentVersion`. -/
def setCurrentVersion (sm : SessionManager) (sessionId versionId : String) :
    Except SMError Unit × SessionManager :=
  match mapGet sm.sessions sessionId with
  | none => (.error (.sessionNotFound ("Session not found: " ++ sessionId)), sm)
  | some session =>
      let updated : Session := { session with currentVersion := some versionId }
      (.ok (), { sm with sessions := mapSet sm.sessions sessionId updated })

/-- `SessionManager.lockSession`: non-blocking test-and-set. -/
def lockSession (sm : SessionManager) (sessionId : String) : Bool × SessionManager :=
  if (mapGet sm.sessionLocks sessionId).getD false then (false, sm)
  else (true, { sm with sessionLocks := mapSet sm.sessionLocks sessionId true })

/-- `SessionManager.unlockSession`. -/
def unlockSession (sm : SessionManager) (sessionId : String) : SessionManager :=
  { sm with sessionLocks := mapSet sm.sessionLocks sessionId false }

/-- `SessionManager.isLocked`. -/
def isLocked (sm : SessionManager) (sessionId : String) : Bool :=
  (mapGet sm.sessionLocks sessionId).getD false


/-- A sample session record used by the concrete instantiations. -/
def sessA : Session :=
  { id := "s1", userId := "u", state := .CREATED, currentVersion := none, lastValidVersion := none, createdAt := 0, expiresAt := 0, metadata := none }

/-- A sample manager holding `sessA` (whose `expiresAt` of 0 is already
in the past at any positive clock reading). -/
def smA : SessionManager :=
  { sessions := [("s1", sessA)], sessionLocks := [("s1", false)] }

/-- Claim C3, counterexample: the session of `smA` is expired at
now = 1 (`expiresAt = 0 < 1`) and `getSession` reports it absent, yet
`transitionState` does not fail with `SessionNotFound` — it performs the
transition.  The claim's assertion that `transitionState` rejects
expired sessions the way `getSession` does is false of the code. -/
theorem C3_counterexample :
    sessA.expiresAt < 1 ∧
    (getSession smA "s1" 1).1 = none ∧
    (transitionState smA "s1" .GENERATING "").1 = .ok () := by
  exact ⟨Nat.zero_lt_one, rfl, rfl⟩

/-- Claim C3 as amended: `transitionState` fails with `SessionNotFound`
exactly for ids with no entry in the session map (never created, or
deleted/evicted); it performs no expiry check of its own, so a session
that is expired but still present is not reported absent (unlike
`getSession`, which reports an expired session absent and evicts it). -/
theorem C3_session_not_found_on_absent_only (sm : SessionManager) (sessionId : String)
    (newState : SessionState) (log : String) (now : Nat) :
    (mapGet sm.sessions sessionId = none →
      transitionState sm sessionId newState log =
        (.error (.sessionNotFound ("Session not found: " ++ sessionId)), sm)) ∧
    (∀ session, mapGet sm.sessions sessionId = some session →
      (∀ m, (transitionState sm sessionId newState log).1 ≠ .error (.sessionNotFound m)) ∧
      (session.expiresAt < now → (getSession sm sessionId now).1 = none)) := by
  constructor
  · intro habs
    rw [transitionState, habs]
  · intro session hs
    constructor
    · intro m
      rw [transitionState, hs]
      by_cases hmem : newState ∈ VALID_TRANSITIONS session.state
      · simp only [if_pos hmem]
        split <;> simp
      · simp [hmem]
    · intro hexp
      simp [getSession, hs, hexp]

/-- Concrete instantiation of C3 as amended: an id that was never
created is rejected with `SessionNotFound`; an id present in the map is
not. -/
theorem C3_session_not_found_on_absent_only_witness :
    transitionState ⟨[], []⟩ "ghost" .GENERATING "" =
      (.error (.sessionNotFound ("Session not found: " ++ "ghost")), ⟨[], []⟩) ∧
    ∀ m, (transitionState smA "s1" .GENERATING "").1 ≠ .error (.sessionNotFound m) := by
  constructor
  · exact (C3_session_not_found_on_absent_only ⟨[], []⟩ "ghost" .GENERATING "" 0).1 rfl
  · exact (((C3_session_not_found_on_absent_only smA "s1" .GENERATING "" 0).2 sessA rfl).1)

/-- Claim C4: for an existing session in state `s`, a target outside the
transition table's allowed set of `s` is rejected with
`InvalidTransition` whose message names `s`, the target and the whole
allowed set, leaving the manager (hence the session's state) unchanged;
a target inside the allowed set succeeds and sets the session's state to
the target. -/
theorem C4_transition_table (sm : SessionManager) (sessionId : String)
    (newState : SessionState) (log : String) (session : Session)
    (hs : mapGet sm.sessions sessionId = some session) :
    (newState ∉ VALID_TRANSITIONS session.state →
      transitionState sm sessionId newState log =
        (.error (.invalidTransition ("Invalid state transition from " ++ sessionStateStr session.state ++ " to " ++ sessionStateStr newState ++ ". Valid transitions: " ++ String.intercalate ", " ((VALID_TRANSITIONS session.state).map sessionStateStr))), sm) ∧
      (transitionState sm sessionId newState log).2 = sm ∧
      mapGet (transitionState sm sessionId newState log).2.sessions sessionId = some session) ∧
    (newState ∈ VALID_TRANSITIONS session.state →
      (transitionState sm sessionId newState log).1 = .ok () ∧
      ∃ session', mapGet (transitionState sm sessionId newState log).2.sessions sessionId =
        some session' ∧ session'.state = newState) := by
  constructor
  · intro hmem
    have herr : transitionState sm sessionId newState log =
        (.error (.invalidTransition ("Invalid state transition from " ++ sessionStateStr session.state ++ " to " ++ sessionStateStr newState ++ ". Valid transitions: " ++ String.intercalate ", " ((VALID_TRANSITIONS session.state).map sessionStateStr))), sm) := by
      simp [transitionState, hs, hmem]
    exact ⟨herr, by rw [herr], by rw [herr]; exact hs⟩
  · intro hmem
    by_cases hready : newState = .READY ∧ jsTruthy session.currentVersion
    · have hok : transitionState sm sessionId newState log =
          (.ok (), { sm with sessions := mapSet sm.sessions sessionId { session with state := newState, lastValidVersion := session.currentVersion } }) := by
        obtain ⟨hr1, hr2⟩ := hready
        subst hr1
        simp [transitionState, hs, hmem, hr2]
      refine ⟨by rw [hok], { session with state := newState, lastValidVersion := session.currentVersion }, ?_, rfl⟩
      rw [hok]
      exact mapGet_mapSet_self _ _ _
    · have hok : transitionState sm sessionId newState log =
          (.ok (), { sm with sessions := mapSet sm.sessions sessionId { session with state := newState } }) := by
        simp [transitionState, hs, hmem, hready]
      refine ⟨by rw [hok], { session with state := newState }, ?_, rfl⟩
      rw [hok]
      exact mapGet_mapSet_self _ _ _

/-- Concrete instantiation of C4: from `CREATED`, `READY` is rejected
with the exact message and no state change; `GENERATING` succeeds. -/
theorem C4_transition_table_witness :
    (transitionState smA "s1" .READY "" =
      (.error (.invalidTransition ("Invalid state transition from " ++ sessionStateStr sessA.state ++ " to " ++ sessionStateStr .READY ++ ". Valid transitions: " ++ String.intercalate ", " ((VALID_TRANSITIONS sessA.state).map sessionStateStr))), smA)) ∧
    ∃ session', mapGet (transitionState smA "s1" .GENERATING "").2.sessions "s1" = some session' ∧
      session'.state = .GENERATING := by
  constructor
  · exact ((C4_transition_table smA "s1" .READY "" sessA rfl).1 (by decide)).1
  · exact ((C4_transition_table smA "s1" .GENERATING "" sessA rfl).2 (by decide)).2

/-- A session in `VALIDATING` whose `currentVersion` is the empty string
— non-null, but falsy in JavaScript. -/
def sessB : Session :=
  { id := "s2", userId := "u", state := .VALIDATING, currentVersion := some "", lastValidVersion := none, createdAt := 0, expiresAt := 0, metadata := none }

def smB : SessionManager :=
  { sessions := [("s2", sessB)], sessionLocks := [("s2", false)] }

/-- Claim C5, counterexample: transitioning `sessB` into `READY`
succeeds, its `currentVersion` (`""`) is non-null, yet
`lastValidVersion` stays `none` instead of becoming `some ""` — the code
tests JavaScript truthiness (`session.currentVersion`), which is false
for the empty string, not nullness. -/
theorem C5_counterexample :
    sessB.currentVersion ≠ none ∧
    SessionState.READY ∈ VALID_TRANSITIONS sessB.state ∧
    (transitionState smB "s2" .READY "").1 = .ok () ∧
    (mapGet (transitionState smB "s2" .READY "").2.sessions "s2").map Session.lastValidVersion =
      some none := by
  exact ⟨by decide, by decide, rfl, rfl⟩

/-- Claim C5 as amended: a successful transition into `READY` with a
truthy (non-null and non-empty) `currentVersion` copies it into
`lastValidVersion`; every other successful transition — any non-`READY`
target, or `READY` with a null or empty `currentVersion` — changes only
the `state` field; other sessions are untouched either way. -/
theorem C5_ready_side_effect (sm : SessionManager) (sessionId : String)
    (newState : SessionState) (log : String) (session : Session)
    (hs : mapGet sm.sessions sessionId = some session)
    (hmem : newState ∈ VALID_TRANSITIONS session.state) :
    (newState = .READY → jsTruthy session.currentVersion = true →
      mapGet (transitionState sm sessionId newState log).2.sessions sessionId =
        some { session with state := newState, lastValidVersion := session.currentVersion }) ∧
    (¬ (newState = .READY ∧ jsTruthy session.currentVersion = true) →
      mapGet (transitionState sm sessionId newState log).2.sessions sessionId =
        some { session with state := newState }) ∧
    (∀ id', id' ≠ sessionId →
      mapGet (transitionState sm sessionId newState log).2.sessions id' =
        mapGet sm.sessions id') := by
  refine ⟨?_, ?_, ?_⟩
  · intro hr1 hr2
    subst hr1
    have hok : transitionState sm sessionId .READY log =
        (.ok (), { sm with sessions := mapSet sm.sessions sessionId { session with state := .READY, lastValidVersion := session.currentVersion } }) := by
      simp [transitionState, hs, hmem, hr2]
    rw [hok]
    exact mapGet_mapSet_self _ _ _
  · intro hready
    have hok : transitionState sm sessionId newState log =
        (.ok (), { sm with sessions := mapSet sm.sessions sessionId { session with state := newState } }) := by
      simp [transitionState, hs, hmem, hready]
    rw [hok]
    exact mapGet_mapSet_self _ _ _
  · intro id' hid
    by_cases hready : newState = .READY ∧ jsTruthy session.currentVersion = true
    · obtain ⟨hr1, hr2⟩ := hready
      subst hr1
      have hok : transitionState sm sessionId .READY log =
          (.ok (), { sm with sessions := mapSet sm.sessions sessionId { session with state := .READY, lastValidVersion := session.currentVersion } }) := by
        simp [transitionState, hs, hmem, hr2]
      rw [hok]
      exact mapGet_mapSet_ne _ _ _ _ (Ne.symm hid)
    · have hok : transitionState sm sessionId newState log =
          (.ok (), { sm with sessions := mapSet sm.sessions sessionId { session with state := newState } }) := by
        simp [transitionState, hs, hmem, hready]
      rw [hok]
      exact mapGet_mapSet_ne _ _ _ _ (Ne.symm hid)

/-- A `VALIDATING` session pointing at version `"v42"`. -/
def sessC : Session :=
  { id := "s3", userId := "u", state := .VALIDATING, currentVersion := some "v42", lastValidVersion := none, createdAt := 0, expiresAt := 0, metadata := none }

def smC : SessionManager :=
  { sessions := [("s3", sessC)], sessionLocks := [("s3", false)] }

/-- Concrete instantiation of C5 as amended: a `VALIDATING` session with
`currentVersion = some "v42"` transitioned into `READY` gets
`lastValidVersion = some "v42"`. -/
theorem C5_ready_side_effect_witness :
    mapGet (transitionState smC "s3" .READY "").2.sessions "s3" =
      some { sessC with state := .READY, lastValidVersion := some "v42" } := by
  exact (C5_ready_side_effect smC "s3" .READY "" sessC rfl (by decide)).1 rfl (by decide)

/-- Claim C9: `lockSession` is a non-blocking test-and-set — on an
unlocked id (flag absent or `false`) it returns `true` and marks the id
locked, on a locked id it returns `false` and changes nothing;
`unlockSession` always succeeds and clears the flag; so lock, lock,
unlock, lock on one id yields `true`, `false`, `true`. -/
theorem C9_lock_test_and_set (sm : SessionManager) (sessionId : String) :
    (isLocked sm sessionId = true → lockSession sm sessionId = (false, sm)) ∧
    (isLocked sm sessionId = false →
      lockSession sm sessionId =
        (true, { sm with sessionLocks := mapSet sm.sessionLocks sessionId true }) ∧
      (lockSession (lockSession sm sessionId).2 sessionId).1 = false ∧
      (lockSession (unlockSession (lockSession (lockSession sm sessionId).2 sessionId).2 sessionId) sessionId).1 = true) ∧
    unlockSession sm sessionId =
      { sm with sessionLocks := mapSet sm.sessionLocks sessionId false } := by
  refine ⟨?_, ?_, rfl⟩
  · intro h
    simp [lockSession, isLocked] at h ⊢
    simp [h]
  · intro h
    simp only [isLocked] at h
    have h1 : lockSession sm sessionId =
        (true, { sm with sessionLocks := mapSet sm.sessionLocks sessionId true }) := by
      simp [lockSession, h]
    refine ⟨h1, ?_, ?_⟩
    · rw [h1]
      simp [lockSession, mapGet_mapSet_self]
    · rw [h1]
      simp [lockSession, unlockSession, mapGet_mapSet_self]

/-- Concrete instantiation of C9: the four-call sequence on the unlocked
id of `smA`. -/
theorem C9_lock_test_and_set_witness :
    isLocked smA "s1" = false ∧
    (lockSession smA "s1").1 = true ∧
    (lockSession (lockSession smA "s1").2 "s1").1 = false ∧
    (lockSession (unlockSession (lockSession (lockSession smA "s1").2 "s1").2 "s1") "s1").1 = true := by
  have h := (C9_lock_test_and_set smA "s1").2.1 (by decide)
  exact ⟨by decide, by rw [h.1], h.2.1, h.2.2⟩

/-! ## ECMAScript `Date` primitives

`Version.timestamp` is a JavaScript `Date`; `serializeVersion` renders
it with the runtime builtin `Date.prototype.toISOString` and
`deserializeVersion` reads it back with `new Date(string)`.  These are
ECMAScript builtins, not repository code, so they are embedded here
following their ECMA-262 definitions over the proleptic Gregorian UTC
calendar: `YearFromTime` is the search for the year containing the time
value, and the serialized form is `YYYY-MM-DDTHH:mm:ss.sssZ` with
millisecond precision. -/
/-! ECMAScript `Date` layer: proleptic Gregorian UTC calendar. -/

def isLeapYear (y : Nat) : Bool :=
  (y % 4 == 0 && y % 100 != 0) || y % 400 == 0

def daysInYear (y : Nat) : Nat :=
  if isLeapYear y then 366 else 365

/-- ECMA-262 `YearFromTime`: the year whose first day is the latest not
after the given day count.  Computed by forward search from 1970; `fuel`
bounds the recursion (any `fuel > days` is enough since every year has
at least 365 days). -/
def yearFromDays : Nat → Nat → Nat → Nat × Nat
  | 0, y, days => (y, days)
  | fuel + 1, y, days =>
      if days < daysInYear y then (y, days)
      else yearFromDays fuel (y + 1) (days - daysInYear y)

/-- Total days of the `k` consecutive years starting at year `y`. -/
def sumYears (y : Nat) : Nat → Nat
  | 0 => 0
  | k + 1 => daysInYear y + sumYears (y + 1) k

def monthLengths (leap : Bool) : List Nat :=
  [31, if leap then 29 else 28, 31, 30, 31, 30, 31, 31, 30, 31, 30, 31]

/-- Walk the month-length table: returns the 1-based month and 0-based
day-of-month for a 0-based day-of-year. -/
def monthWalk : List Nat → Nat → Nat → Nat × Nat
  | [], m, d => (m, d)
  | len :: rest, m, d => if d < len then (m, d) else monthWalk rest (m + 1) (d - len)

/-- Days before the `j`-th (0-based) entry of a month-length table. -/
def sumFirst : List Nat → Nat → Nat
  | _, 0 => 0
  | [], _ + 1 => 0
  | len :: rest, j + 1 => len + sumFirst rest j

def digitChar : Nat → Char
  | 0 => '0' | 1 => '1' | 2 => '2' | 3 => '3' | 4 => '4'
  | 5 => '5' | 6 => '6' | 7 => '7' | 8 => '8' | _ => '9'

def digitVal (c : Char) : Nat := c.toNat - 48

def pad2 (n : Nat) : List Char := [digitChar (n / 10 % 10), digitChar (n % 10)]

def pad3 (n : Nat) : List Char :=
  [digitChar (n / 100 % 10), digitChar (n / 10 % 10), digitChar (n % 10)]

def pad4 (n : Nat) : List Char :=
  [digitChar (n / 1000 % 10), digitChar (n / 100 % 10), digitChar (n / 10 % 10), digitChar (n % 10)]

def digitsToNat (cs : List Char) : Nat :=
  cs.foldl (fun a c => a * 10 + digitVal c) 0

/-- Year and day-of-year of the ECMAScript time value `t` (fuel
`days + 1` always suffices since every year has at least 365 days). -/
def yearCiv (t : Nat) : Nat × Nat :=
  yearFromDays (t / 86400000 + 1) 1970 (t / 86400000)

/-- 1-based month and 0-based day-of-month of the time value `t`. -/
def monthCiv (t : Nat) : Nat × Nat :=
  monthWalk (monthLengths (isLeapYear (yearCiv t).1)) 1 (yearCiv t).2

/-- `Date.prototype.toISOString`: `YYYY-MM-DDTHH:mm:ss.sssZ` for times
whose year fits in four digits. -/
def toISOString (t : Nat) : String :=
  String.mk (pad4 (yearCiv t).1 ++ '-' :: pad2 (monthCiv t).1 ++
    '-' :: pad2 ((monthCiv t).2 + 1) ++
    'T' :: pad2 (t / 3600000 % 24) ++ ':' :: pad2 (t / 60000 % 60) ++
    ':' :: pad2 (t / 1000 % 60) ++ '.' :: pad3 (t % 1000) ++ ['Z'])

/-- The seven fixed-position fields of the ISO string. -/
def parseY (s : String) : Nat := digitsToNat (s.data.take 4)

def parseMo (s : String) : Nat := digitsToNat ((s.data.drop 5).take 2)

def parseD (s : String) : Nat := digitsToNat ((s.data.drop 8).take 2)

def parseHH (s : String) : Nat := digitsToNat ((s.data.drop 11).take 2)

def parseMI (s : String) : Nat := digitsToNat ((s.data.drop 14).take 2)

def parseSS (s : String) : Nat := digitsToNat ((s.data.drop 17).take 2)

def parseMS (s : String) : Nat := digitsToNat ((s.data.drop 20).take 3)

/-- `new Date(string)` on the ISO format above (ECMA-262 date-time
string interpretation, UTC). -/
def parseISO (s : String) : Nat :=
  (sumYears 1970 (parseY s - 1970) +
    sumFirst (monthLengths (isLeapYear (parseY s))) (parseMo s - 1) + (parseD s - 1)) * 86400000 +
    parseHH s * 3600000 + parseMI s * 60000 + parseSS s * 1000 + parseMS s

theorem daysInYear_ge (y : Nat) : 365 ≤ daysInYear y := by
  unfold daysInYear
  split <;> omega

theorem yearFromDays_spec : ∀ (fuel y days : Nat), days < fuel →
    ∃ k, yearFromDays fuel y days = (y + k, days - sumYears y k) ∧
      sumYears y k ≤ days ∧ days - sumYears y k < daysInYear (y + k) := by
  intro fuel
  induction fuel with
  | zero => omega
  | succ fuel ih =>
      intro y days hlt
      by_cases hd : days < daysInYear y
      · exact ⟨0, by simp [yearFromDays, hd, sumYears], by simp [sumYears], by simpa [sumYears]⟩
      · have h365 := daysInYear_ge y
        have hrec : days - daysInYear y < fuel := by omega
        obtain ⟨k', hk1, hk2, hk3⟩ := ih (y + 1) (days - daysInYear y) hrec
        refine ⟨k' + 1, ?_, ?_, ?_⟩
        · rw [yearFromDays, if_neg hd, hk1]
          have : y + 1 + k' = y + (k' + 1) := by omega
          rw [this]
          have : sumYears y (k' + 1) = daysInYear y + sumYears (y + 1) k' := rfl
          rw [this]
          have : days - (daysInYear y + sumYears (y + 1) k') = days - daysInYear y - sumYears (y + 1) k' := by omega
          rw [this]
        · show sumYears y (k' + 1) ≤ days
          have : sumYears y (k' + 1) = daysInYear y + sumYears (y + 1) k' := rfl
          omega
        · have he : sumYears y (k' + 1) = daysInYear y + sumYears (y + 1) k' := rfl
          have hy : y + 1 + k' = y + (k' + 1) := by omega
          rw [he]
          rw [hy] at hk3
          omega

theorem sumYears_succ_right (y k : Nat) : sumYears y (k + 1) = sumYears y k + daysInYear (y + k) := by
  induction k generalizing y with
  | zero => simp [sumYears]
  | succ k ih =>
      show daysInYear y + sumYears (y + 1) (k + 1) = sumYears y (k + 1) + daysInYear (y + (k + 1))
      rw [ih (y + 1)]
      show daysInYear y + (sumYears (y + 1) k + daysInYear (y + 1 + k)) =
        daysInYear y + sumYears (y + 1) k + daysInYear (y + (k + 1))
      have : y + 1 + k = y + (k + 1) := by omega
      rw [this]
      omega

theorem sumYears_mono (y : Nat) {k1 k2 : Nat} (h : k1 ≤ k2) : sumYears y k1 ≤ sumYears y k2 := by
  induction k2 with
  | zero =>
      have hk : k1 = 0 := by omega
      rw [hk]
  | succ k2 ih =>
      by_cases hk : k1 = k2 + 1
      · rw [hk]
      · have := ih (by omega)
        rw [sumYears_succ_right]
        omega

theorem isLeapYear_add_400 (y : Nat) : isLeapYear (y + 400) = isLeapYear y := by
  unfold isLeapYear
  have h4 : (y + 400) % 4 = y % 4 := by omega
  have h100 : (y + 400) % 100 = y % 100 := by omega
  have h400 : (y + 400) % 400 = y % 400 := by omega
  rw [h4, h100, h400]

theorem daysInYear_add_400 (y : Nat) : daysInYear (y + 400) = daysInYear y := by
  unfold daysInYear
  rw [isLeapYear_add_400]

theorem sumYears_shift_400 (y : Nat) : sumYears (y + 1) 400 = sumYears y 400 := by
  have h1 : sumYears y 401 = daysInYear y + sumYears (y + 1) 400 := rfl
  have h2 : sumYears y 401 = sumYears y 400 + daysInYear (y + 400) := sumYears_succ_right y 400
  rw [daysInYear_add_400] at h2
  omega

theorem sumYears_400_const (y : Nat) : sumYears y 400 = sumYears 0 400 := by
  induction y with
  | zero => rfl
  | succ y ih => rw [sumYears_shift_400, ih]

set_option maxHeartbeats 1000000 in
set_option maxRecDepth 4000 in
theorem sumYears_0_400 : sumYears 0 400 = 146097 := by decide

theorem sumYears_add (a : Nat) : ∀ (y b : Nat), sumYears y (a + b) = sumYears y a + sumYears (y + a) b := by
  induction a with
  | zero => intro y b; simp [sumYears]
  | succ a ih =>
      intro y b
      have h1 : a + 1 + b = (a + b) + 1 := by omega
      show sumYears y (a + 1 + b) = sumYears y (a + 1) + sumYears (y + (a + 1)) b
      have hL : sumYears y (a + 1 + b) = daysInYear y + sumYears (y + 1) (a + b) := by
        rw [h1]
        rfl
      have hR : sumYears y (a + 1) = daysInYear y + sumYears (y + 1) a := rfl
      have hih := ih (y + 1) b
      have hsh : y + 1 + a = y + (a + 1) := by omega
      rw [hL, hR, hih, hsh]
      omega

theorem sumYears_mul_400 (y : Nat) : ∀ n, sumYears y (400 * n) = 146097 * n := by
  intro n
  induction n with
  | zero => simp [sumYears]
  | succ n ih =>
      have h : 400 * (n + 1) = 400 * n + 400 := by omega
      rw [h, sumYears_add (400 * n) y 400, ih, sumYears_400_const, sumYears_0_400]
      omega

set_option maxRecDepth 2000 in
theorem sumYears_9970_30 : sumYears 9970 30 = 10957 := by decide

theorem sumYears_1970_8030 : sumYears 1970 8030 = 2932897 := by
  have h : (8030 : Nat) = 400 * 20 + 30 := by omega
  rw [h, sumYears_add (400 * 20) 1970 30, sumYears_mul_400]
  have : (1970 + 400 * 20 : Nat) = 9970 := by omega
  rw [this, sumYears_9970_30]

theorem monthWalk_spec : ∀ (lens : List Nat) (m d : Nat), d < lens.sum →
    ∃ j, ∃ hj : j < lens.length, monthWalk lens m d = (m + j, d - sumFirst lens j) ∧
      sumFirst lens j ≤ d ∧ d - sumFirst lens j < lens.get ⟨j, hj⟩ := by
  intro lens
  induction lens with
  | nil => intro m d h; simp at h
  | cons len rest ih =>
      intro m d h
      by_cases hd : d < len
      · exact ⟨0, by simp, by simp [monthWalk, hd, sumFirst], by simp [sumFirst], by simpa [sumFirst]⟩
      · have hsum : d - len < rest.sum := by
          simp [List.sum_cons] at h
          omega
        obtain ⟨j', hj', hw, hs, hb⟩ := ih (m + 1) (d - len) hsum
        refine ⟨j' + 1, by simpa using Nat.succ_lt_succ hj', ?_, ?_, ?_⟩
        · rw [monthWalk, if_neg hd, hw]
          have h1 : m + 1 + j' = m + (j' + 1) := by omega
          have h2 : sumFirst (len :: rest) (j' + 1) = len + sumFirst rest j' := rfl
          rw [h1, h2]
          have : d - len - sumFirst rest j' = d - (len + sumFirst rest j') := by omega
          rw [this]
        · have h2 : sumFirst (len :: rest) (j' + 1) = len + sumFirst rest j' := rfl
          omega
        · have h2 : sumFirst (len :: rest) (j' + 1) = len + sumFirst rest j' := rfl
          rw [h2]
          have hget : (len :: rest).get ⟨j' + 1, by simpa using Nat.succ_lt_succ hj'⟩ = rest.get ⟨j', hj'⟩ := rfl
          rw [hget]
          omega

theorem monthLengths_sum (leap : Bool) : (monthLengths leap).sum = if leap then 366 else 365 := by
  cases leap <;> rfl

theorem monthLengths_le (leap : Bool) : ∀ x ∈ monthLengths leap, x ≤ 31 := by
  cases leap <;> decide
theorem monthLengths_get_le (leap : Bool) (j : Nat) (hj : j < (monthLengths leap).length) :
    (monthLengths leap).get ⟨j, hj⟩ ≤ 31 :=
  monthLengths_le leap _ (List.get_mem _ _ _)

theorem digitVal_digitChar (d : Nat) (h : d < 10) : digitVal (digitChar d) = d := by
  interval_cases d <;> rfl

theorem digitsToNat_pad2 (n : Nat) (h : n < 100) : digitsToNat (pad2 n) = n := by
  show ((0 * 10 + digitVal (digitChar (n / 10 % 10))) * 10 + digitVal (digitChar (n % 10))) = n
  rw [digitVal_digitChar _ (by omega), digitVal_digitChar _ (by omega)]
  omega

theorem digitsToNat_pad3 (n : Nat) (h : n < 1000) : digitsToNat (pad3 n) = n := by
  show (((0 * 10 + digitVal (digitChar (n / 100 % 10))) * 10 + digitVal (digitChar (n / 10 % 10))) * 10 + digitVal (digitChar (n % 10))) = n
  rw [digitVal_digitChar _ (by omega), digitVal_digitChar _ (by omega),
    digitVal_digitChar _ (by omega)]
  omega

theorem digitsToNat_pad4 (n : Nat) (h : n < 10000) : digitsToNat (pad4 n) = n := by
  show ((((0 * 10 + digitVal (digitChar (n / 1000 % 10))) * 10 + digitVal (digitChar (n / 100 % 10))) * 10 + digitVal (digitChar (n / 10 % 10))) * 10 + digitVal (digitChar (n % 10))) = n
  rw [digitVal_digitChar _ (by omega), digitVal_digitChar _ (by omega),
    digitVal_digitChar _ (by omega), digitVal_digitChar _ (by omega)]
  omega

theorem field_take (f rest : List Char) (n : Nat) (hf : f.length = n) :
    (f ++ rest).take n = f := by
  subst hf
  exact List.take_left f rest

theorem drop_shift : ∀ (l : List Char) (c : Char) (r : List Char),
    (l ++ c :: r).drop (l.length + 1) = r := by
  intro l
  induction l with
  | nil => intro c r; rfl
  | cons x xs ih =>
      intro c r
      show (xs ++ c :: r).drop (xs.length + 1) = r
      exact ih c r

theorem pad2_length (n : Nat) : (pad2 n).length = 2 := rfl
theorem pad3_length (n : Nat) : (pad3 n).length = 3 := rfl
theorem pad4_length (n : Nat) : (pad4 n).length = 4 := rfl

set_option maxHeartbeats 1000000 in
theorem parseISO_toISOString (t : Nat) (ht : t < 253402300800000) :
    parseISO (toISOString t) = t := by
  obtain ⟨k, hyd, hksum, hkbound⟩ := yearFromDays_spec (t / 86400000 + 1) 1970 (t / 86400000)
    (by omega)
  have hyc : yearCiv t = (1970 + k, t / 86400000 - sumYears 1970 k) := hyd
  have hdlt : t / 86400000 < 2932897 := by omega
  have hk8029 : k ≤ 8029 := by
    by_contra hk
    have h1 : (8030 : Nat) ≤ k := by omega
    have h2 := sumYears_mono 1970 h1
    rw [sumYears_1970_8030] at h2
    omega
  have hdoylt : t / 86400000 - sumYears 1970 k <
      (monthLengths (isLeapYear (1970 + k))).sum := by
    rw [monthLengths_sum]
    unfold daysInYear at hkbound
    exact hkbound
  obtain ⟨j, hj, hmw, hjsum, hjb⟩ :=
    monthWalk_spec (monthLengths (isLeapYear (1970 + k))) 1
      (t / 86400000 - sumYears 1970 k) hdoylt
  have hj12 : j < 12 := by
    have hlen : (monthLengths (isLeapYear (1970 + k))).length = 12 := by
      unfold monthLengths
      rfl
    omega
  have hget31 := monthLengths_get_le (isLeapYear (1970 + k)) j hj
  have hmc : monthCiv t =
      (1 + j, t / 86400000 - sumYears 1970 k - sumFirst (monthLengths (isLeapYear (1970 + k))) j) := by
    unfold monthCiv
    rw [hyc]
    exact hmw
  -- name the seven rendered fields and the tail lists
  have hiso : toISOString t = String.mk
      (pad4 (1970 + k) ++ '-' :: (pad2 (1 + j) ++
        '-' :: (pad2 (t / 86400000 - sumYears 1970 k -
          sumFirst (monthLengths (isLeapYear (1970 + k))) j + 1) ++
        'T' :: (pad2 (t / 3600000 % 24) ++ ':' :: (pad2 (t / 60000 % 60) ++
        ':' :: (pad2 (t / 1000 % 60) ++ '.' :: (pad3 (t % 1000) ++ ['Z']))))))) := by
    unfold toISOString
    rw [hyc, hmc]
    rfl
  rw [hiso]
  have hdata : ∀ cs : List Char, (String.mk cs).data = cs := fun _ => rfl
  -- positions of the suffixes
  set X1 := pad2 (1 + j) ++ '-' :: (pad2 (t / 86400000 - sumYears 1970 k -
    sumFirst (monthLengths (isLeapYear (1970 + k))) j + 1) ++
    'T' :: (pad2 (t / 3600000 % 24) ++ ':' :: (pad2 (t / 60000 % 60) ++
    ':' :: (pad2 (t / 1000 % 60) ++ '.' :: (pad3 (t % 1000) ++ ['Z']))))) with hX1
  set cs := pad4 (1970 + k) ++ '-' :: X1 with hcs
  have hd5 : cs.drop 5 = X1 := drop_shift (pad4 (1970 + k)) '-' X1
  set X2 := pad2 (t / 86400000 - sumYears 1970 k -
    sumFirst (monthLengths (isLeapYear (1970 + k))) j + 1) ++
    'T' :: (pad2 (t / 3600000 % 24) ++ ':' :: (pad2 (t / 60000 % 60) ++
    ':' :: (pad2 (t / 1000 % 60) ++ '.' :: (pad3 (t % 1000) ++ ['Z'])))) with hX2
  have hd8 : cs.drop 8 = X2 := by
    have h1 : (cs.drop 5).drop 3 = cs.drop (3 + 5) := List.drop_drop 3 5 cs
    have h2 : X1.drop 3 = X2 := drop_shift (pad2 (1 + j)) '-' X2
    rw [hd5] at h1
    rw [h2] at h1
    exact h1.symm
  set X3 := pad2 (t / 3600000 % 24) ++ ':' :: (pad2 (t / 60000 % 60) ++
    ':' :: (pad2 (t / 1000 % 60) ++ '.' :: (pad3 (t % 1000) ++ ['Z']))) with hX3
  have hd11 : cs.drop 11 = X3 := by
    have h1 : (cs.drop 8).drop 3 = cs.drop (3 + 8) := List.drop_drop 3 8 cs
    have h2 : X2.drop 3 = X3 := drop_shift (pad2 _) 'T' X3
    rw [hd8] at h1
    rw [h2] at h1
    exact h1.symm
  set X4 := pad2 (t / 60000 % 60) ++ ':' :: (pad2 (t / 1000 % 60) ++
    '.' :: (pad3 (t % 1000) ++ ['Z'])) with hX4
  have hd14 : cs.drop 14 = X4 := by
    have h1 : (cs.drop 11).drop 3 = cs.drop (3 + 11) := List.drop_drop 3 11 cs
    have h2 : X3.drop 3 = X4 := drop_shift (pad2 _) ':' X4
    rw [hd11] at h1
    rw [h2] at h1
    exact h1.symm
  set X5 := pad2 (t / 1000 % 60) ++ '.' :: (pad3 (t % 1000) ++ ['Z']) with hX5
  have hd17 : cs.drop 17 = X5 := by
    have h1 : (cs.drop 14).drop 3 = cs.drop (3 + 14) := List.drop_drop 3 14 cs
    have h2 : X4.drop 3 = X5 := drop_shift (pad2 _) ':' X5
    rw [hd14] at h1
    rw [h2] at h1
    exact h1.symm
  set X6 := pad3 (t % 1000) ++ ['Z'] with hX6
  have hd20 : cs.drop 20 = X6 := by
    have h1 : (cs.drop 17).drop 3 = cs.drop (3 + 17) := List.drop_drop 3 17 cs
    have h2 : X5.drop 3 = X6 := drop_shift (pad2 _) '.' X6
    rw [hd17] at h1
    rw [h2] at h1
    exact h1.symm
  -- field values
  have hY : parseY (String.mk cs) = 1970 + k := by
    unfold parseY
    rw [hdata]
    rw [hcs, field_take _ _ 4 (pad4_length _)]
    exact digitsToNat_pad4 _ (by omega)
  have hMo : parseMo (String.mk cs) = 1 + j := by
    unfold parseMo
    rw [hdata, hd5, hX1, field_take _ _ 2 (pad2_length _)]
    exact digitsToNat_pad2 _ (by omega)
  have hD : parseD (String.mk cs) = t / 86400000 - sumYears 1970 k -
      sumFirst (monthLengths (isLeapYear (1970 + k))) j + 1 := by
    unfold parseD
    rw [hdata, hd8, hX2, field_take _ _ 2 (pad2_length _)]
    exact digitsToNat_pad2 _ (by omega)
  have hHH : parseHH (String.mk cs) = t / 3600000 % 24 := by
    unfold parseHH
    rw [hdata, hd11, hX3, field_take _ _ 2 (pad2_length _)]
    exact digitsToNat_pad2 _ (by omega)
  have hMI : parseMI (String.mk cs) = t / 60000 % 60 := by
    unfold parseMI
    rw [hdata, hd14, hX4, field_take _ _ 2 (pad2_length _)]
    exact digitsToNat_pad2 _ (by omega)
  have hSS : parseSS (String.mk cs) = t / 1000 % 60 := by
    unfold parseSS
    rw [hdata, hd17, hX5, field_take _ _ 2 (pad2_length _)]
    exact digitsToNat_pad2 _ (by omega)
  have hMS : parseMS (String.mk cs) = t % 1000 := by
    unfold parseMS
    rw [hdata, hd20, hX6, field_take _ _ 3 (pad3_length _)]
    exact digitsToNat_pad3 _ (by omega)
  unfold parseISO
  rw [hY, hMo, hD, hHH, hMI, hSS, hMS]
  have e1 : 1970 + k - 1970 = k := by omega
  have e2 : 1 + j - 1 = j := by omega
  rw [e1, e2]
  have e3 : t / 86400000 - sumYears 1970 k -
      sumFirst (monthLengths (isLeapYear (1970 + k))) j + 1 - 1 =
      t / 86400000 - sumYears 1970 k -
      sumFirst (monthLengths (isLeapYear (1970 + k))) j := by omega
  rw [e3]
  omega


/-- The persistence-friendly record `serializeVersion` builds:
`{ id, timestamp: <ISO string>, files: <ordered key/value pairs>, status,
errorLog? }`.  `Object.fromEntries` of a string-keyed `Map` and
`Object.entries` back preserve every path/content pair, so the `files`
payload is the entry list itself. -/
structure SerializedVersion where
  id : String
  timestamp : String
  files : List (String × String)
  status : VersionStatus
  errorLog : Option String
  deriving DecidableEq, Repr

/-- `VersionManager.serializeVersion`. -/
def serializeVersion (h : Heap) (v : Version) : SerializedVersion :=
  { id := v.id, timestamp := toISOString v.timestamp, files := heapGet h v.filesRef,
    status := v.status, errorLog := v.errorLog }

/-- `VersionManager.deserializeVersion`: `new Date(data.timestamp)` and
`new Map(Object.entries(data.files))` (a fresh map object). -/
def deserializeVersion (h : Heap) (d : SerializedVersion) : Heap × Version :=
  ((heapAlloc h d.files).1,
    { id := d.id, timestamp := parseISO d.timestamp, filesRef := (heapAlloc h d.files).2,
      status := d.status, errorLog := d.errorLog })

/-- Claim C8: `deserializeVersion (serializeVersion v)` reproduces the
version's id, status and errorLog, every file path/content pair exactly,
and the timestamp exactly to the millisecond (hence to at least
one-second precision), for any timestamp whose year fits the four-digit
ISO format. -/
theorem C8_serialization_roundtrip (h h2 : Heap) (v : Version)
    (ht : v.timestamp < 253402300800000) :
    ∀ h' v', deserializeVersion h2 (serializeVersion h v) = (h', v') →
      v'.id = v.id ∧ v'.status = v.status ∧ v'.errorLog = v.errorLog ∧
      v'.timestamp = v.timestamp ∧
      heapGet h' v'.filesRef = heapGet h v.filesRef := by
  intro h' v' hde
  have hh' : h' = (heapAlloc h2 (heapGet h v.filesRef)).1 :=
    (congrArg Prod.fst hde).symm
  have hv' : v' = { id := v.id, timestamp := parseISO (toISOString v.timestamp), filesRef := (heapAlloc h2 (heapGet h v.filesRef)).2, status := v.status, errorLog := v.errorLog } :=
    (congrArg Prod.snd hde).symm
  refine ⟨by rw [hv'], by rw [hv'], by rw [hv'], ?_, ?_⟩
  · rw [hv']
    exact parseISO_toISOString v.timestamp ht
  · rw [hh', hv']
    exact heapGet_heapAlloc_fresh h2 (heapGet h v.filesRef)

/-- A sample version over the one-file map `{x: "1"}`, stamped
2023-11-14T22:13:20.123Z. -/
def vW : Version :=
  { id := "v1", timestamp := 1700000000123, filesRef := 0, status := .VALID, errorLog := some "e" }

/-- Concrete instantiation of C8: the round trip of `vW` through the
serialized form restores id, timestamp (to the millisecond), errorLog
and the file mapping. -/
theorem C8_serialization_roundtrip_witness :
    (deserializeVersion [] (serializeVersion [[("x", "1")]] vW)).2.id = "v1" ∧
    (deserializeVersion [] (serializeVersion [[("x", "1")]] vW)).2.timestamp = 1700000000123 ∧
    (deserializeVersion [] (serializeVersion [[("x", "1")]] vW)).2.errorLog = some "e" ∧
    heapGet (deserializeVersion [] (serializeVersion [[("x", "1")]] vW)).1
      (deserializeVersion [] (serializeVersion [[("x", "1")]] vW)).2.filesRef = [("x", "1")] := by
  have h := C8_serialization_roundtrip [[("x", "1")]] [] vW (by decide)
    (deserializeVersion [] (serializeVersion [[("x", "1")]] vW)).1
    (deserializeVersion [] (serializeVersion [[("x", "1")]] vW)).2 rfl
  exact ⟨h.1, h.2.2.2.1, h.2.2.1, by rw [h.2.2.2.2]; decide⟩
